import Mathlib

/-!
Verification development for the Neutron MCP server (TypeScript sources
`src/index.ts` and the bundled `NeutronClient`).

The development shallowly embeds the parts of the program the claims are
about:

* the IEEE-754 double-precision arithmetic used by the Lightning-invoice
  shortcut (`amountSats / 100_000_000`, `Math.round(btcAmount * 100_000_000)`)
  is modelled exactly: a finite double is a dyadic rational `m * 2 ^ e`, and
  each arithmetic step rounds the exact rational result to 53 significant
  bits with round-to-nearest, ties-to-even, exactly as IEEE-754 binary64
  prescribes.  Exponent overflow/underflow is not modelled: every quantity
  appearing in these computations (satoshi counts below 2 ^ 53, BTC amounts
  around 10 ^ -8 of that) lies far inside the normal range of binary64, so
  the unbounded-exponent model agrees with binary64 on them.
* the transaction normalizer of the `neutron_create_transaction` handler,
  as a pure function from the argument bag to the canonical request body.
  JavaScript `undefined` is modelled by `Option.none`; a key whose value is
  `undefined` is dropped by `JSON.stringify`, so the serialized request omits
  exactly the `none` fields.  JavaScript truthiness tests (`if (a.x)`) on
  optional strings are false for both `undefined` and `""`.
* the `neutron_create_lightning_invoice` handler, with the two remote calls
  (`createTransaction`, `confirmTransaction`) abstracted as function-valued
  oracles and the emitted call sequence recorded as a trace.
* the session cache of `NeutronClient.ensureAuthenticated`, with the network
  bootstrap abstracted as an `Except`-valued oracle and the number of network
  calls made by an invocation recorded explicitly.
* the error-message construction of `NeutronClient.request` for non-success
  HTTP responses.
* the `CallToolRequestSchema` handler wrapper: `getClient()` runs before the
  `try` block, the `switch` dispatch runs inside it.
-/

/- ── JavaScript helpers ──────────────────────────────────────────────── -/

/-- Truthiness of an optional JavaScript string: `undefined` and the empty
string are falsy, every other string is truthy. -/
def jsTruthy : Option String → Bool
  | none => false
  | some s => decide (s ≠ "")

/-- The JavaScript expression `o || d` for an optional string `o` and a
default `d`: the value of `o` when it is truthy, otherwise `d`. -/
def jsOrDefault (o : Option String) (d : String) : String :=
  match o with
  | none => d
  | some s => if s = "" then d else s

/-- The JavaScript guarded assignment `if (a.x) out.x = a.x`: the field is
set only when the source value is truthy. -/
def jsCopyTruthy (o : Option String) : Option String :=
  match o with
  | none => none
  | some s => if s = "" then none else some s

/- ── IEEE-754 binary64 model ─────────────────────────────────────────── -/

/-- A finite double-precision value, represented as the dyadic rational
`m * 2 ^ e`.  The representation is not required to be normalized; the
rounding function below always produces `|m| ≤ 2 ^ 53`. -/
structure Dbl where
  m : ℤ
  e : ℤ
deriving DecidableEq, Repr

/-- Exact rational value of a dyadic `Dbl`. -/
def Dbl.val (x : Dbl) : ℚ := (x.m : ℚ) * (2 : ℚ) ^ x.e

/-- Fuel-driven binary logarithm on naturals (structural recursion, so the
kernel can evaluate it on literals). -/
def log2fuel : ℕ → ℕ → ℕ
  | 0, _ => 0
  | f + 1, n => if n < 2 then 0 else log2fuel f (n / 2) + 1

/-- Floor of the binary logarithm of a positive natural. -/
def nlog2 (n : ℕ) : ℕ := log2fuel n n

/-- Round the nonnegative ratio `A / B` to the nearest integer, ties to
even (`A ≥ 0`, `B ≥ 1`; `/` and `%` on `ℤ` are Euclidean). -/
def roundNEratio (A B : ℤ) : ℤ :=
  let q := A / B
  let r := A % B
  if 2 * r < B then q
  else if B < 2 * r then q + 1
  else if q % 2 = 0 then q else q + 1

/-- Decide whether `a / b < 2 ^ t` for positive integers `a`, `b` and an
arbitrary integer exponent `t`, using only integer arithmetic. -/
def ratioLt (a b t : ℤ) : Bool :=
  if 0 ≤ t then a < b * (2 : ℤ) ^ t.toNat
  else a * (2 : ℤ) ^ (-t).toNat < b

/-- Exponent selection for rounding `a / b` (both positive) to binary64:
an exponent `e` with `2 ^ (52 + e) ≤ a / b < 2 ^ (53 + e)`, found from the
bit lengths of `a` and `b` with one correcting comparison. -/
def pickExp (a b : ℤ) : ℤ :=
  let g : ℤ := (nlog2 a.natAbs : ℤ) - (nlog2 b.natAbs : ℤ) - 52
  if ratioLt a b (g + 52) then g - 1 else g

/-- The pair of integers `(A, B)` with `A / B = (a / b) * 2 ^ (-e)`. -/
def shiftRatio (a b e : ℤ) : ℤ × ℤ :=
  if 0 ≤ e then (a, b * (2 : ℤ) ^ e.toNat) else (a * (2 : ℤ) ^ (-e).toNat, b)

/-- Round the exact rational `a / b` (with `b ≥ 1`) to the nearest binary64
value, ties to even.  This is the rounding every IEEE-754 binary64 operation
applies to its exact result. -/
def flRat (a b : ℤ) : Dbl :=
  if a = 0 then ⟨0, 0⟩
  else if a < 0 then
    let e := pickExp (-a) b
    let p := shiftRatio (-a) b e
    ⟨-roundNEratio p.1 p.2, e⟩
  else
    let e := pickExp a b
    let p := shiftRatio a b e
    ⟨roundNEratio p.1 p.2, e⟩

/-- The JavaScript expression `x / 100_000_000` in binary64: the exact
quotient of the dyadic `x` by `10 ^ 8`, rounded to binary64. -/
def jsDiv1e8 (x : Dbl) : Dbl :=
  if 0 ≤ x.e then flRat (x.m * (2 : ℤ) ^ x.e.toNat) 100000000
  else flRat x.m (100000000 * (2 : ℤ) ^ (-x.e).toNat)

/-- The JavaScript expression `x * 100_000_000` in binary64: the exact
product of the dyadic `x` with `10 ^ 8`, rounded to binary64. -/
def jsMul1e8 (x : Dbl) : Dbl :=
  if 0 ≤ x.e then flRat (x.m * 100000000 * (2 : ℤ) ^ x.e.toNat) 1
  else flRat (x.m * 100000000) ((2 : ℤ) ^ (-x.e).toNat)

/-- `Math.round` of a finite double: the integer `⌊v + 1 / 2⌋` of its exact
value `v` (nearest integer, half rounded toward positive infinity),
computed with integer arithmetic. -/
def mathRoundD (x : Dbl) : ℤ :=
  if 0 ≤ x.e then x.m * (2 : ℤ) ^ x.e.toNat
  else (2 * x.m + (2 : ℤ) ^ (-x.e).toNat) / (2 ^ ((-x.e).toNat + 1))

/-- The `neutron_create_lightning_invoice` handler's satoshi-to-BTC
conversion `amountSats / 100_000_000` applied to a whole number of
satoshis. -/
def satsToBtc (s : ℤ) : Dbl := jsDiv1e8 ⟨s, 0⟩

/-- The handler's reported satoshi amount
`Math.round(btcAmount * 100_000_000)`. -/
def reportedSats (btc : Dbl) : ℤ := mathRoundD (jsMul1e8 btc)

/-- The composition the satoshi round-trip claim is about: satoshi input to
BTC and back to the reported satoshi amount. -/
def satsRoundTrip (s : ℤ) : ℤ := reportedSats (satsToBtc s)

/- ── Transaction normalizer (`neutron_create_transaction` handler) ────── -/

/-- The caller-facing intent: the argument bag of `neutron_create_transaction`
(all optional fields are JavaScript `undefined` when missing; amounts are
JavaScript numbers, i.e. doubles). -/
structure TxnIntent where
  sourceCcy : String
  sourceMethod : String
  sourceAmount : Option Dbl := none
  destCcy : String
  destMethod : String
  destAmount : Option Dbl := none
  paymentRequest : Option String := none
  lnurl : Option String := none
  address : Option String := none
  bankAcctNum : Option String := none
  institutionCode : Option String := none
  recipientName : Option String := none
  countryCode : Option String := none
  kycType : Option String := none
  extRefId : Option String := none
deriving DecidableEq, Repr

/-- The `reqDetails` object assembled for the destination side (each key set
only when the corresponding argument is truthy). -/
structure ReqDetails where
  paymentRequest : Option String := none
  lnurl : Option String := none
  address : Option String := none
  bankAcctNum : Option String := none
  institutionCode : Option String := none
deriving DecidableEq, Repr

/-- The derived KYC block `{type, details: {legalFullName, countryCode}}`.
The two detail fields are copied verbatim from the intent (and hence absent
from the serialized JSON when the intent left them undefined). -/
structure Kyc where
  type : String
  legalFullName : Option String
  countryCode : Option String
deriving DecidableEq, Repr

/-- The derived `sourceOfFunds` block. -/
structure SourceOfFunds where
  purpose : ℤ
  source : ℤ
  relationship : ℤ
deriving DecidableEq, Repr

/-- One side (`sourceReq` or `destReq`) of the canonical transaction-creation
request.  `amtRequested = none` means the key is absent from the object (the
handler uses conditional spread for it). -/
structure SideReq where
  ccy : String
  method : String
  amtRequested : Option Dbl := none
  reqDetails : ReqDetails := {}
  kyc : Option Kyc := none
deriving DecidableEq, Repr

/-- The canonical transaction-creation request body.  `extRefId` is written
unconditionally by the handler (`extRefId: a.extRefId`), so in the JavaScript
object the key is always present; `JSON.stringify` drops it from the
serialized request exactly when its value is `undefined` (`none` here). -/
structure CanonicalTxnRequest where
  extRefId : Option String := none
  sourceReq : SideReq
  destReq : SideReq
  sourceOfFunds : Option SourceOfFunds := none
deriving DecidableEq, Repr

/-- The body of the `neutron_create_transaction` case: the pure normalization
from the argument bag to the canonical request body (source lines 449-494). -/
def normalizeTransaction (a : TxnIntent) : CanonicalTxnRequest :=
  let destReqDetails : ReqDetails :=
    { paymentRequest := jsCopyTruthy a.paymentRequest
      lnurl := jsCopyTruthy a.lnurl
      address := jsCopyTruthy a.address
      bankAcctNum := jsCopyTruthy a.bankAcctNum
      institutionCode := jsCopyTruthy a.institutionCode }
  let kyc : Option Kyc :=
    if jsTruthy a.recipientName || jsTruthy a.countryCode then
      some { type := jsOrDefault a.kycType "individual"
             legalFullName := a.recipientName
             countryCode := a.countryCode }
    else none
  let sourceOfFunds : Option SourceOfFunds :=
    if jsTruthy a.bankAcctNum then some ⟨1, 5, 3⟩ else none
  { extRefId := a.extRefId
    sourceReq :=
      { ccy := a.sourceCcy
        method := a.sourceMethod
        amtRequested := a.sourceAmount
        reqDetails := {} }
    destReq :=
      { ccy := a.destCcy
        method := a.destMethod
        amtRequested := a.destAmount
        reqDetails := destReqDetails
        kyc := kyc }
    sourceOfFunds := sourceOfFunds }

/- ── Lightning-invoice shortcut handler ──────────────────────────────── -/

/-- The nested `reqDetails` of a transaction returned by the remote API
(the fields the handler reads, each possibly absent). -/
structure RespDetails where
  paymentRequest : Option String := none
  invoicePageUrl : Option String := none
deriving DecidableEq, Repr

/-- One side of a transaction returned by the remote API; `reqDetails` may be
absent (the handler uses optional chaining to read it). -/
structure RespSide where
  reqDetails : Option RespDetails := none
deriving DecidableEq, Repr

/-- A transaction object returned by the remote API, restricted to the fields
the Lightning-invoice handler reads.  `sourceReq` may be absent. -/
structure TxnResponse where
  txnId : String
  txnState : String
  sourceReq : Option RespSide := none
deriving DecidableEq, Repr

/-- The optional chain `txn.sourceReq?.reqDetails?.paymentRequest`. -/
def TxnResponse.invoiceOf (t : TxnResponse) : Option String :=
  (t.sourceReq.bind RespSide.reqDetails).bind RespDetails.paymentRequest

/-- The optional chain `txn.sourceReq?.reqDetails?.invoicePageUrl`. -/
def TxnResponse.qrPageOf (t : TxnResponse) : Option String :=
  (t.sourceReq.bind RespSide.reqDetails).bind RespDetails.invoicePageUrl

/-- A remote API call issued by a handler, recorded for sequencing claims. -/
inductive ApiCall where
  | createTxn (body : CanonicalTxnRequest)
  | confirmTxn (txnId : String)
deriving DecidableEq, Repr

/-- The result object built by `neutron_create_lightning_invoice`. -/
structure LnInvoiceResult where
  txnId : String
  invoice : Option String
  qrPageUrl : Option String
  amountBtc : Dbl
  amountSats : ℤ
  memo : Option String
  status : String
deriving DecidableEq, Repr

/-- Amount selection of the Lightning-invoice handler: `amountSats` (divided
by `100_000_000` in binary64) takes precedence; `amountBtc` is used only when
`amountSats` is `undefined`; `none` when neither is given. -/
def lnBtcAmount (amountSats amountBtc : Option Dbl) : Option Dbl :=
  match amountSats with
  | some s => some (jsDiv1e8 s)
  | none => amountBtc

/-- The creation request body built by the Lightning-invoice handler for a
given BTC amount and external reference id. -/
def lnCreateBody (extRefId : Option String) (btcAmount : Dbl) :
    CanonicalTxnRequest :=
  { extRefId := extRefId
    sourceReq := { ccy := "BTC", method := "lightning" }
    destReq :=
      { ccy := "BTC", method := "neutronpay", amtRequested := some btcAmount } }

/-- The `neutron_create_lightning_invoice` handler (source lines 403-446).
The two remote operations are abstracted as oracles `create` and `confirm`;
the second component of the result is the sequence of remote calls issued.
An `Except.error` is the thrown `Error` (caught further out by the tool-call
wrapper). -/
def createLightningInvoiceTool (amountSats amountBtc : Option Dbl)
    (memo extRefId : Option String)
    (create : CanonicalTxnRequest → TxnResponse)
    (confirm : String → TxnResponse) :
    Except String LnInvoiceResult × List ApiCall :=
  match lnBtcAmount amountSats amountBtc with
  | none => (Except.error "Provide either amountSats or amountBtc", [])
  | some btcAmount =>
    let body := lnCreateBody extRefId btcAmount
    let txn := create body
    let confirmed := confirm txn.txnId
    (Except.ok
      { txnId := confirmed.txnId
        invoice := confirmed.invoiceOf
        qrPageUrl := confirmed.qrPageOf
        amountBtc := btcAmount
        amountSats := mathRoundD (jsMul1e8 btcAmount)
        memo := if jsTruthy memo then memo else none
        status := confirmed.txnState },
      [ApiCall.createTxn body, ApiCall.confirmTxn txn.txnId])

/- ── Session manager (`NeutronClient.ensureAuthenticated`) ───────────── -/

/-- The authentication response cached by the client (`accountId`,
`accessToken`, optional `expiredAt`; the ISO date string is abstracted as the
epoch-milliseconds value `new Date(expiredAt).getTime()` yields). -/
structure AuthResponse where
  accountId : String
  accessToken : String
  expiredAt : Option ℤ := none
deriving DecidableEq, Repr

/-- The mutable session fields of `NeutronClient`. -/
structure ClientState where
  accountId : Option String := none
  accessToken : Option String := none
  tokenExpiry : ℤ := 0
  cachedAuthResponse : Option AuthResponse := none
deriving DecidableEq, Repr

deriving instance DecidableEq for Except

/-- Outcome of one `ensureAuthenticated()` invocation: the state after the
call, the returned (or thrown) value, and how many network requests the
invocation performed. -/
structure EnsureOutcome where
  state : ClientState
  result : Except String AuthResponse
  networkCalls : ℕ
deriving DecidableEq, Repr

/-- One invocation of `NeutronClient.ensureAuthenticated` (source lines
630-672).  `now` is `Date.now()`; `net` is the network oracle for the
token-signature POST (`Except.error` for a non-ok response).  The cached
session is returned, with no network call, exactly when
`this.cachedAuthResponse && this.accessToken && this.accountId &&
Date.now() < this.tokenExpiry` holds, JavaScript truthiness included. -/
def ensureAuthenticated (st : ClientState) (now : ℤ)
    (net : Except String AuthResponse) : EnsureOutcome :=
  match st.cachedAuthResponse with
  | some cached =>
    if jsTruthy st.accessToken && jsTruthy st.accountId
        && decide (now < st.tokenExpiry) then
      { state := st, result := Except.ok cached, networkCalls := 0 }
    else ensureAuthBootstrap st now net
  | none => ensureAuthBootstrap st now net
where
  /-- The bootstrap branch: POST the signed probe, then on success overwrite
  the four session fields (expiry defaults to one hour past `now` when the
  response has no `expiredAt`); on failure throw, leaving the state as it
  was. -/
  ensureAuthBootstrap (st : ClientState) (now : ℤ)
      (net : Except String AuthResponse) : EnsureOutcome :=
    match net with
    | Except.error e =>
      { state := st
        result := Except.error ("Authentication failed: " ++ e)
        networkCalls := 1 }
    | Except.ok r =>
      { state :=
          { accountId := some r.accountId
            accessToken := some r.accessToken
            tokenExpiry := match r.expiredAt with
              | some t => t
              | none => now + 3600000
            cachedAuthResponse := some r }
        result := Except.ok r
        networkCalls := 1 }

/- ── Request dispatcher error message (`NeutronClient.request`) ──────── -/

/-- The JSON error body of a non-success response, restricted to the two
fields the dispatcher reads.  `none` models an absent field. -/
structure ErrorBody where
  error : Option String := none
  message : Option String := none
deriving DecidableEq, Repr

/-- The message of the error thrown by `NeutronClient.request` on a
non-success response (source lines 703-708): the body is parsed best-effort
(`none` models a non-JSON or empty body, substituted by an empty object), and
the detail is `body.error || body.message || response.statusText`. -/
def requestErrorMessage (status : ℕ) (body : Option ErrorBody)
    (statusText : String) : String :=
  let b := body.getD {}
  "API Error " ++ toString status ++ ": "
    ++ jsOrDefault b.error (jsOrDefault b.message statusText)

/-- Modelled from the spec (for comparison with `requestErrorMessage`): the
claimed priority order uses the `error` field whenever it is present, else
the `message` field whenever it is present, else the HTTP status text. -/
def specRequestErrorMessage (status : ℕ) (body : Option ErrorBody)
    (statusText : String) : String :=
  let b := body.getD {}
  "API Error " ++ toString status ++ ": "
    ++ (match b.error with
        | some e => e
        | none => match b.message with
          | some m => m
          | none => statusText)

/- ── Tool-call wrapper (`CallToolRequestSchema` handler) ─────────────── -/

/-- The result returned to the MCP transport for one tool call: the text
content and whether the `isError` flag is set. -/
structure CallToolResult where
  text : String
  isError : Bool
deriving DecidableEq, Repr

/-- `getClient()` (source lines 14-30): throws when either credential
environment variable is missing or empty (JavaScript `!apiKey` truthiness),
otherwise yields a client. -/
def getClient (apiKey apiSecret : Option String) : Except String Unit :=
  if !jsTruthy apiKey || !jsTruthy apiSecret then
    Except.error
      ("NEUTRON_API_KEY and NEUTRON_API_SECRET environment variables are required. "
        ++ "Get your credentials at https://neutron.me")
  else Except.ok ()

/-- The `CallToolRequestSchema` handler (source lines 369-582).  The entire
`switch` dispatch — including unknown tool names, locally-checked
preconditions, authentication failures and API failures — is abstracted as
the `dispatch` argument (`Except.error` for any value thrown inside the
`try`).  `getClient()` runs before the `try` block, so its failure is not
converted: it surfaces as the `Except.error` of the returned value.  Inside
the `try`, a thrown value is converted to a result with `isError := true`
and an `Error: `-prefixed message. -/
def handleCallTool (apiKey apiSecret : Option String)
    (dispatch : Except String String) : Except String CallToolResult :=
  match getClient apiKey apiSecret with
  | Except.error e => Except.error e
  | Except.ok _ =>
    Except.ok (match dispatch with
      | Except.ok r => { text := r, isError := false }
      | Except.error msg => { text := "Error: " ++ msg, isError := true })

/- ── Normalizer field equations ──────────────────────────────────────── -/

theorem normalize_extRefId_eq (a : TxnIntent) :
    (normalizeTransaction a).extRefId = a.extRefId := rfl

theorem normalize_sourceAmt_eq (a : TxnIntent) :
    (normalizeTransaction a).sourceReq.amtRequested = a.sourceAmount := rfl

theorem normalize_destAmt_eq (a : TxnIntent) :
    (normalizeTransaction a).destReq.amtRequested = a.destAmount := rfl

theorem normalize_kyc_eq (a : TxnIntent) :
    (normalizeTransaction a).destReq.kyc =
      (if jsTruthy a.recipientName || jsTruthy a.countryCode then
        some { type := jsOrDefault a.kycType "individual"
               legalFullName := a.recipientName
               countryCode := a.countryCode }
      else none) := rfl

theorem normalize_sourceOfFunds_eq (a : TxnIntent) :
    (normalizeTransaction a).sourceOfFunds =
      (if jsTruthy a.bankAcctNum then some ⟨1, 5, 3⟩ else none) := rfl

/- ── C2 ──────────────────────────────────────────────────────────────── -/

/-- C2: for an intent in which only `sourceAmount` is defined, the canonical
request carries `sourceReq.amtRequested = sourceAmount` and omits
`destReq.amtRequested`; symmetrically when only `destAmount` is defined. -/
theorem amount_exclusivity_passthrough (a : TxnIntent) :
    (∀ x : Dbl, a.sourceAmount = some x → a.destAmount = none →
      (normalizeTransaction a).sourceReq.amtRequested = some x ∧
      (normalizeTransaction a).destReq.amtRequested = none) ∧
    (∀ x : Dbl, a.destAmount = some x → a.sourceAmount = none →
      (normalizeTransaction a).destReq.amtRequested = some x ∧
      (normalizeTransaction a).sourceReq.amtRequested = none) := by
  constructor <;> intro x hx hy <;>
    simp [normalize_sourceAmt_eq, normalize_destAmt_eq, hx, hy]

/-- Witness for C2 at a concrete source-amount-only intent. -/
theorem amount_exclusivity_passthrough_witness :
    (let a : TxnIntent :=
      { sourceCcy := "BTC", sourceMethod := "neutronpay"
        destCcy := "USDT", destMethod := "neutronpay"
        sourceAmount := some ⟨1, -10⟩ }
     (normalizeTransaction a).sourceReq.amtRequested = some ⟨1, -10⟩ ∧
     (normalizeTransaction a).destReq.amtRequested = none) :=
  (amount_exclusivity_passthrough _).1 ⟨1, -10⟩ rfl rfl

/- ── C6 ──────────────────────────────────────────────────────────────── -/

/-- Counterexample for C6: `recipientName` is supplied (as the empty string),
yet the canonical request carries no `destReq.kyc` — the code tests
JavaScript truthiness, not presence. -/
theorem kyc_derivation_counterexample :
    (let a : TxnIntent :=
      { sourceCcy := "BTC", sourceMethod := "neutronpay"
        destCcy := "VND", destMethod := "vnd-instant"
        recipientName := some "" }
     a.recipientName ≠ none ∧ (normalizeTransaction a).destReq.kyc = none) := by
  decide

/-- C6 (amended): `destReq.kyc` is present iff `recipientName` or
`countryCode` is supplied with a non-empty (truthy) value; when present its
type is `kycType` when that is truthy and `"individual"` otherwise, and its
details carry `recipientName` and `countryCode` verbatim. -/
theorem kyc_derivation (a : TxnIntent) :
    ((normalizeTransaction a).destReq.kyc ≠ none ↔
      (jsTruthy a.recipientName = true ∨ jsTruthy a.countryCode = true)) ∧
    (∀ k : Kyc, (normalizeTransaction a).destReq.kyc = some k →
      k.type = jsOrDefault a.kycType "individual" ∧
      k.legalFullName = a.recipientName ∧
      k.countryCode = a.countryCode) := by
  rw [normalize_kyc_eq]
  cases hr : jsTruthy a.recipientName <;> cases hc : jsTruthy a.countryCode <;>
      simp

/-- Witness for C6 at the spec's example intent (`recipientName` Jane Doe,
no `kycType`). -/
theorem kyc_derivation_witness :
    (let a : TxnIntent :=
      { sourceCcy := "BTC", sourceMethod := "neutronpay"
        destCcy := "VND", destMethod := "vnd-instant"
        recipientName := some "Jane Doe" }
     let k : Kyc := { type := "individual", legalFullName := some "Jane Doe"
                      countryCode := none }
     k.type = jsOrDefault a.kycType "individual" ∧
     k.legalFullName = a.recipientName ∧
     k.countryCode = a.countryCode) :=
  (kyc_derivation
      { sourceCcy := "BTC", sourceMethod := "neutronpay"
        destCcy := "VND", destMethod := "vnd-instant"
        recipientName := some "Jane Doe" }).2
    { type := "individual", legalFullName := some "Jane Doe"
      countryCode := none } (by decide)

/-- Counterexample for C7: `bankAcctNum` is supplied (as the empty string),
yet the canonical request has no `sourceOfFunds` — the code tests JavaScript
truthiness, not presence. -/
theorem source_of_funds_counterexample :
    (let a : TxnIntent :=
      { sourceCcy := "BTC", sourceMethod := "neutronpay"
        destCcy := "VND", destMethod := "vnd-instant"
        bankAcctNum := some "" }
     a.bankAcctNum ≠ none ∧ (normalizeTransaction a).sourceOfFunds = none) := by
  decide

/-- C7 (amended): the canonical request carries a top-level `sourceOfFunds`
iff `bankAcctNum` is supplied with a non-empty (truthy) value; when present
it is exactly `purpose 1, source 5, relationship 3`, and otherwise the field
is absent (omitted key), not null. -/
theorem source_of_funds_derivation (a : TxnIntent) :
    ((normalizeTransaction a).sourceOfFunds ≠ none ↔
      jsTruthy a.bankAcctNum = true) ∧
    (∀ sof : SourceOfFunds, (normalizeTransaction a).sourceOfFunds = some sof →
      sof = ⟨1, 5, 3⟩) := by
  rw [normalize_sourceOfFunds_eq]
  cases hb : jsTruthy a.bankAcctNum <;> simp

/-- Witness for C7 at the spec's fiat-payout intent. -/
theorem source_of_funds_witness :
    (normalizeTransaction
      { sourceCcy := "BTC", sourceMethod := "neutronpay"
        destCcy := "VND", destMethod := "vnd-instant"
        bankAcctNum := some "0123456789" }).sourceOfFunds = some ⟨1, 5, 3⟩ ∧
    (⟨1, 5, 3⟩ : SourceOfFunds) = ⟨1, 5, 3⟩ :=
  ⟨by decide,
    (source_of_funds_derivation
      { sourceCcy := "BTC", sourceMethod := "neutronpay"
        destCcy := "VND", destMethod := "vnd-instant"
        bankAcctNum := some "0123456789" }).2 ⟨1, 5, 3⟩ (by decide)⟩

/- ── C9 ──────────────────────────────────────────────────────────────── -/

/-- Counterexample for C9: an intent supplying the empty string as
`extRefId` yields a canonical request that still carries the `extRefId`
field (with the empty string) — the handler writes `extRefId: a.extRefId`
unconditionally, and `JSON.stringify` drops it only when it is
`undefined`. -/
theorem extrefid_passthrough_counterexample :
    (let a : TxnIntent :=
      { sourceCcy := "BTC", sourceMethod := "neutronpay"
        destCcy := "BTC", destMethod := "lightning"
        extRefId := some "" }
     (normalizeTransaction a).extRefId = some "" ∧
     (normalizeTransaction a).extRefId ≠ none) := by
  decide

/-- C9 (amended): the canonical request's `extRefId` is the intent's
`extRefId` verbatim; in the serialized request the field is therefore
present iff the intent defines `extRefId` — including when it is the empty
string — and absent exactly when the intent leaves it undefined. -/
theorem extrefid_passthrough (a : TxnIntent) :
    (normalizeTransaction a).extRefId = a.extRefId ∧
    ((normalizeTransaction a).extRefId = none ↔ a.extRefId = none) := by
  simp [normalize_extRefId_eq]

/- ── C10 ─────────────────────────────────────────────────────────────── -/

/-- C10: when `amountSats` is defined the Lightning-invoice handler uses
`amountSats / 100_000_000` (in binary64) as the BTC amount and ignores
`amountBtc` entirely; `amountBtc` is used only when `amountSats` is
undefined. -/
theorem sats_precedence (x : Dbl) (b b2 : Option Dbl) (memo ext : Option String)
    (create : CanonicalTxnRequest → TxnResponse)
    (confirm : String → TxnResponse) :
    lnBtcAmount (some x) b = some (jsDiv1e8 x) ∧
    lnBtcAmount none b = b ∧
    createLightningInvoiceTool (some x) b memo ext create confirm =
      createLightningInvoiceTool (some x) b2 memo ext create confirm :=
  ⟨rfl, rfl, rfl⟩

/- ── C8 ──────────────────────────────────────────────────────────────── -/

/-- Counterexample for C8: with the API-key environment variable unset,
`getClient()` throws before the `try` block of the tool-call handler, so the
error escapes the wrapper instead of being converted to an `isError`
result. -/
theorem tool_error_wrapping_counterexample :
    handleCallTool none (some "secret") (Except.ok "done") =
      Except.error
        ("NEUTRON_API_KEY and NEUTRON_API_SECRET environment variables are required. "
          ++ "Get your credentials at https://neutron.me") := by
  decide

/-- C8 (amended): once `getClient()` succeeds (both credentials truthy),
every error thrown inside the dispatch — unknown tool names, locally-checked
preconditions, authentication failures, API failures — is converted to a
structured result with `isError := true` and an `Error: `-prefixed message,
and a successful dispatch yields a non-error result; only the
missing-credential error thrown by `getClient()` before the `try` block
escapes unconverted. -/
theorem tool_error_wrapping (k s : Option String) (d : Except String String)
    (hk : jsTruthy k = true) (hs : jsTruthy s = true) :
    handleCallTool k s d =
      Except.ok (match d with
        | Except.ok r => { text := r, isError := false }
        | Except.error msg => { text := "Error: " ++ msg, isError := true }) := by
  simp [handleCallTool, getClient, hk, hs]

/-- Witness for C8: a thrown API failure is wrapped into an `isError`
result. -/
theorem tool_error_wrapping_witness :
    jsTruthy (some "key") = true ∧
    handleCallTool (some "key") (some "secret") (Except.error "API Error 500: boom") =
      Except.ok { text := "Error: API Error 500: boom", isError := true } :=
  ⟨by decide,
    tool_error_wrapping (some "key") (some "secret")
      (Except.error "API Error 500: boom") (by decide) (by decide)⟩

/- ── C4 ──────────────────────────────────────────────────────────────── -/

/-- Counterexample for C4: a session state whose cached response, account id
and expiry satisfy the claim's hypotheses and whose access token is non-null
(but empty, hence falsy) makes `ensureAuthenticated` perform a network call
instead of returning the cached session. -/
theorem session_cache_counterexample :
    (let st : ClientState :=
      { accountId := some "acct_1", accessToken := some ""
        tokenExpiry := 1000
        cachedAuthResponse := some ⟨"acct_1", "", none⟩ }
     st.cachedAuthResponse ≠ none ∧ st.accessToken ≠ none ∧
     st.accountId ≠ none ∧ (0 : ℤ) < st.tokenExpiry ∧
     (ensureAuthenticated st 0 (Except.ok ⟨"acct_1", "tok", none⟩)).networkCalls
       = 1) := by
  decide

/-- C4 (amended): when the cached auth response is present, the access token
and account id are non-null and non-empty (truthy), and the current time is
strictly before the cached expiry, `ensureAuthenticated` returns the cached
session unchanged with zero network calls; a repeated call within the
validity window again performs zero network calls. -/
theorem session_cache_idempotent (st : ClientState) (now now2 : ℤ)
    (net net2 : Except String AuthResponse) (c : AuthResponse)
    (hc : st.cachedAuthResponse = some c)
    (ht : jsTruthy st.accessToken = true)
    (ha : jsTruthy st.accountId = true)
    (hn : now < st.tokenExpiry)
    (hn2 : now2 < st.tokenExpiry) :
    ensureAuthenticated st now net =
      { state := st, result := Except.ok c, networkCalls := 0 } ∧
    ensureAuthenticated (ensureAuthenticated st now net).state now2 net2 =
      { state := st, result := Except.ok c, networkCalls := 0 } := by
  have h1 : ensureAuthenticated st now net =
      { state := st, result := Except.ok c, networkCalls := 0 } := by
    unfold ensureAuthenticated
    rw [hc]
    simp [ht, ha, hn]
  refine ⟨h1, ?_⟩
  rw [h1]
  unfold ensureAuthenticated
  rw [hc]
  simp [ht, ha, hn2]

/-- Witness for C4 at a concrete warm session state. -/
theorem session_cache_idempotent_witness :
    (let st : ClientState :=
      { accountId := some "acct_1", accessToken := some "tok"
        tokenExpiry := 1000
        cachedAuthResponse := some ⟨"acct_1", "tok", some 1000⟩ }
     ensureAuthenticated st 5 (Except.ok ⟨"x", "y", none⟩) =
      { state := st, result := Except.ok ⟨"acct_1", "tok", some 1000⟩
        networkCalls := 0 } ∧
     ensureAuthenticated
        (ensureAuthenticated st 5 (Except.ok ⟨"x", "y", none⟩)).state 6
        (Except.error "down") =
      { state := st, result := Except.ok ⟨"acct_1", "tok", some 1000⟩
        networkCalls := 0 }) :=
  session_cache_idempotent _ 5 6 _ _ _ (by decide) (by decide) (by decide)
    (by decide) (by decide)

/- ── C3 ──────────────────────────────────────────────────────────────── -/

/-- Counterexample for C3: an error body whose `error` field is present but
empty.  The claim's priority order (spec-modelled `specRequestErrorMessage`)
uses the present `error` field, but the code's `||` chain skips the falsy
empty string and uses the `message` field `"Y"`. -/
theorem request_error_priority_counterexample :
    requestErrorMessage 404 (some { error := some "", message := some "Y" })
        "Not Found" = "API Error 404: Y" ∧
    specRequestErrorMessage 404 (some { error := some "", message := some "Y" })
        "Not Found" = "API Error 404: " ∧
    requestErrorMessage 404 (some { error := some "", message := some "Y" })
        "Not Found" ≠
      specRequestErrorMessage 404 (some { error := some "", message := some "Y" })
        "Not Found" := by
  refine ⟨rfl, rfl, ?_⟩
  decide

/-- C3 (amended): the raised API failure's message uses the body's `error`
field when it is present and non-empty (truthy), else the `message` field
when that is present and non-empty, else the HTTP status text; an error body
with truthy `error := "X"` yields `"X"`, never the `message` field. -/
theorem request_error_priority (status : ℕ) (b : ErrorBody)
    (statusText : String) :
    (∀ e, b.error = some e → e ≠ "" →
      requestErrorMessage status (some b) statusText =
        "API Error " ++ toString status ++ ": " ++ e) ∧
    ((b.error = none ∨ b.error = some "") →
      ∀ m, b.message = some m → m ≠ "" →
        requestErrorMessage status (some b) statusText =
          "API Error " ++ toString status ++ ": " ++ m) ∧
    ((b.error = none ∨ b.error = some "") →
      (b.message = none ∨ b.message = some "") →
        requestErrorMessage status (some b) statusText =
          "API Error " ++ toString status ++ ": " ++ statusText) := by
  refine ⟨?_, ?_, ?_⟩
  · intro e he hne
    simp [requestErrorMessage, jsOrDefault, he, hne]
  · rintro (he | he) m hm hnm <;>
      simp [requestErrorMessage, jsOrDefault, he, hm, hnm]
  · rintro (he | he) (hm | hm) <;>
      simp [requestErrorMessage, jsOrDefault, he, hm]

/-- Witness for C3 at the spec's example body. -/
theorem request_error_priority_witness :
    ({ error := some "X", message := some "Y" } : ErrorBody).error = some "X" ∧
    requestErrorMessage 404 (some { error := some "X", message := some "Y" })
        "Not Found" = "API Error " ++ toString 404 ++ ": " ++ "X" :=
  ⟨rfl,
    (request_error_priority 404 { error := some "X", message := some "Y" }
        "Not Found").1 "X" rfl (by decide)⟩

/- ── C5 ──────────────────────────────────────────────────────────────── -/

/-- C5: with a valid amount, the Lightning-invoice handler builds a creation
body whose `sourceReq` is BTC/lightning with no `amtRequested` and empty
`reqDetails` and whose `destReq` is BTC/neutronpay carrying the BTC amount;
it issues the creation call and then immediately the confirmation of the
returned `txnId`, and the result exposes the confirmed transaction's
`sourceReq.reqDetails.paymentRequest` as the invoice and
`sourceReq.reqDetails.invoicePageUrl` as the QR-page URL. -/
theorem lightning_shortcut (amountSats amountBtc : Option Dbl)
    (memo ext : Option String) (b : Dbl)
    (create : CanonicalTxnRequest → TxnResponse)
    (confirm : String → TxnResponse)
    (hb : lnBtcAmount amountSats amountBtc = some b) :
    createLightningInvoiceTool amountSats amountBtc memo ext create confirm =
      (Except.ok
        { txnId := (confirm (create (lnCreateBody ext b)).txnId).txnId
          invoice := (confirm (create (lnCreateBody ext b)).txnId).invoiceOf
          qrPageUrl := (confirm (create (lnCreateBody ext b)).txnId).qrPageOf
          amountBtc := b
          amountSats := reportedSats b
          memo := if jsTruthy memo then memo else none
          status := (confirm (create (lnCreateBody ext b)).txnId).txnState },
        [ApiCall.createTxn (lnCreateBody ext b),
         ApiCall.confirmTxn (create (lnCreateBody ext b)).txnId]) ∧
    (lnCreateBody ext b).sourceReq =
      { ccy := "BTC", method := "lightning", amtRequested := none
        reqDetails := {}, kyc := none } ∧
    (lnCreateBody ext b).destReq =
      { ccy := "BTC", method := "neutronpay", amtRequested := some b
        reqDetails := {}, kyc := none } := by
  refine ⟨?_, rfl, rfl⟩
  unfold createLightningInvoiceTool
  rw [hb]
  rfl

/-- Witness for C5: the spec's scenario `amountSats = 5000`, with concrete
create/confirm oracles; the BTC amount is the binary64 value nearest
`0.00005` and the reported satoshi amount is `5000`. -/
theorem lightning_shortcut_witness :
    (let body := lnCreateBody none ⟨7378697629483821, -67⟩
     let create : CanonicalTxnRequest → TxnResponse := fun _ =>
       { txnId := "txn_1", txnState := "quoted" }
     let confirm : String → TxnResponse := fun _ =>
       { txnId := "txn_1", txnState := "completed"
         sourceReq :=
           some
             { reqDetails :=
                 some
                   { paymentRequest := some "lnbc50u1p"
                     invoicePageUrl := some "https://qr" } } }
     lnBtcAmount (some ⟨5000, 0⟩) none = some ⟨7378697629483821, -67⟩ ∧
     reportedSats ⟨7378697629483821, -67⟩ = 5000 ∧
     createLightningInvoiceTool (some ⟨5000, 0⟩) none none none create confirm =
      (Except.ok
        { txnId := "txn_1"
          invoice := some "lnbc50u1p"
          qrPageUrl := some "https://qr"
          amountBtc := ⟨7378697629483821, -67⟩
          amountSats := 5000
          memo := none
          status := "completed" },
        [ApiCall.createTxn body, ApiCall.confirmTxn "txn_1"])) := by
  have h := (lightning_shortcut (some ⟨5000, 0⟩) none none none
      ⟨7378697629483821, -67⟩
      (fun _ => { txnId := "txn_1", txnState := "quoted" })
      (fun _ =>
        { txnId := "txn_1", txnState := "completed"
          sourceReq :=
            some
              { reqDetails :=
                  some
                    { paymentRequest := some "lnbc50u1p"
                      invoicePageUrl := some "https://qr" } } })
      (by decide)).1
  refine ⟨by decide, by decide, ?_⟩
  rw [h]
  decide

/- ── C1: analysis of the binary64 rounding model ─────────────────────── -/

theorem log2fuel_bounds :
    ∀ f n : ℕ, 1 ≤ n → n ≤ f →
      2 ^ log2fuel f n ≤ n ∧ n < 2 ^ (log2fuel f n + 1) := by
  intro f
  induction f with
  | zero => intro n h1 h2; omega
  | succ f ih =>
    intro n h1 h2
    by_cases hn : n < 2
    · have : n = 1 := by omega
      subst this
      simp [log2fuel]
    · have hrec : log2fuel (f + 1) n = log2fuel f (n / 2) + 1 := by
        simp [log2fuel, hn]
      have hhalf1 : 1 ≤ n / 2 := by omega
      have hhalf2 : n / 2 ≤ f := by omega
      obtain ⟨ha, hb⟩ := ih (n / 2) hhalf1 hhalf2
      rw [hrec]
      constructor
      · calc 2 ^ (log2fuel f (n / 2) + 1) = 2 * 2 ^ log2fuel f (n / 2) := by ring
        _ ≤ 2 * (n / 2) := by omega
        _ ≤ n := by omega
      · calc n < 2 * (n / 2) + 2 := by omega
        _ ≤ 2 * 2 ^ (log2fuel f (n / 2) + 1) := by omega
        _ = 2 ^ (log2fuel f (n / 2) + 1 + 1) := by ring

theorem nlog2_le (n : ℕ) (h : 1 ≤ n) : 2 ^ nlog2 n ≤ n :=
  (log2fuel_bounds n n h le_rfl).1

theorem lt_nlog2_succ (n : ℕ) (h : 1 ≤ n) : n < 2 ^ (nlog2 n + 1) :=
  (log2fuel_bounds n n h le_rfl).2

theorem roundNEratio_err (A B : ℤ) (hB : 0 < B) :
    |(roundNEratio A B : ℚ) - (A : ℚ) / (B : ℚ)| ≤ 1 / 2 := by
  have hBq : (0 : ℚ) < (B : ℚ) := by exact_mod_cast hB
  have hBne : (B : ℚ) ≠ 0 := ne_of_gt hBq
  have hdecomp : (A : ℚ) = (B : ℚ) * ((A / B : ℤ) : ℚ) + ((A % B : ℤ) : ℚ) := by
    exact_mod_cast congrArg (Int.cast : ℤ → ℚ) (Int.ediv_add_emod A B).symm
  have hAB : (A : ℚ) / (B : ℚ) = ((A / B : ℤ) : ℚ) + ((A % B : ℤ) : ℚ) / B := by
    rw [hdecomp]
    field_simp
    ring
  have hr0 : (0 : ℚ) ≤ ((A % B : ℤ) : ℚ) := by
    exact_mod_cast Int.emod_nonneg A (ne_of_gt hB)
  have hrB : ((A % B : ℤ) : ℚ) < (B : ℚ) := by
    exact_mod_cast Int.emod_lt_of_pos A hB
  have ht0 : (0 : ℚ) ≤ ((A % B : ℤ) : ℚ) / B := div_nonneg hr0 (le_of_lt hBq)
  have ht1 : ((A % B : ℤ) : ℚ) / B < 1 := (div_lt_one hBq).mpr hrB
  simp only [roundNEratio]
  by_cases h1 : 2 * (A % B) < B
  · have h1q : (2 : ℚ) * ((A % B : ℤ) : ℚ) < (B : ℚ) := by exact_mod_cast h1
    have hlt : ((A % B : ℤ) : ℚ) / B < 1 / 2 := by
      rw [div_lt_div_iff₀ hBq (by norm_num)]
      linarith
    rw [if_pos h1, hAB, abs_le]
    constructor <;> linarith
  · by_cases h2 : B < 2 * (A % B)
    · have h2q : (B : ℚ) < (2 : ℚ) * ((A % B : ℤ) : ℚ) := by exact_mod_cast h2
      have hgt : (1 : ℚ) / 2 < ((A % B : ℤ) : ℚ) / B := by
        rw [div_lt_div_iff₀ (by norm_num) hBq]
        linarith
      rw [if_neg h1, if_pos h2, hAB]
      push_cast
      rw [abs_le]
      constructor <;> linarith
    · have hBB : (2 : ℤ) * (A % B) = B := le_antisymm (not_lt.mp h2) (not_lt.mp h1)
      have hBBq : (2 : ℚ) * ((A % B : ℤ) : ℚ) = (B : ℚ) := by exact_mod_cast hBB
      have heq : ((A % B : ℤ) : ℚ) / B = 1 / 2 := by
        rw [div_eq_div_iff hBne (by norm_num)]
        linarith
      rw [if_neg h1, if_neg h2, hAB]
      by_cases h3 : (A / B) % 2 = 0 <;> simp [h3] <;>
        rw [heq, abs_le] <;> constructor <;> linarith

theorem two_zpow_toNat (t : ℤ) (ht : 0 ≤ t) :
    ((2 : ℚ) ^ t.toNat) = (2 : ℚ) ^ t := by
  rw [← zpow_natCast]
  congr 1
  omega

theorem ratioLt_iff (a b t : ℤ) (hb : 0 < b) :
    ratioLt a b t = true ↔ (a : ℚ) / (b : ℚ) < (2 : ℚ) ^ t := by
  have hbq : (0 : ℚ) < (b : ℚ) := by exact_mod_cast hb
  simp only [ratioLt]
  by_cases ht : 0 ≤ t
  · rw [if_pos ht]
    have hcast : ((2 : ℚ) ^ t.toNat : ℚ) = (2 : ℚ) ^ t :=
      two_zpow_toNat t ht
    rw [div_lt_iff₀ hbq, ← hcast]
    simp only [decide_eq_true_eq]
    constructor
    · intro h
      calc (a : ℚ) < ((b * 2 ^ t.toNat : ℤ) : ℚ) := by exact_mod_cast h
        _ = (2 : ℚ) ^ t.toNat * (b : ℚ) := by push_cast; ring
    · intro h
      have : (a : ℚ) < ((b * 2 ^ t.toNat : ℤ) : ℚ) := by
        calc (a : ℚ) < (2 : ℚ) ^ t.toNat * (b : ℚ) := h
          _ = ((b * 2 ^ t.toNat : ℤ) : ℚ) := by push_cast; ring
      exact_mod_cast this
  · rw [if_neg ht]
    have htn : 0 ≤ -t := by omega
    have hcast : ((2 : ℚ) ^ (-t).toNat : ℚ) = (2 : ℚ) ^ (-t : ℤ) :=
      two_zpow_toNat (-t) htn
    have hpow : (0 : ℚ) < (2 : ℚ) ^ (-t : ℤ) := zpow_pos (by norm_num) _
    simp only [decide_eq_true_eq]
    constructor
    · intro h
      have hq : (a : ℚ) * (2 : ℚ) ^ (-t : ℤ) < (b : ℚ) := by
        rw [← hcast]
        calc (a : ℚ) * (2 : ℚ) ^ (-t).toNat
            = ((a * 2 ^ (-t).toNat : ℤ) : ℚ) := by push_cast; ring
          _ < (b : ℚ) := by exact_mod_cast h
      rw [div_lt_iff₀ hbq]
      calc (a : ℚ) = ((a : ℚ) * (2 : ℚ) ^ (-t : ℤ)) * (2 : ℚ) ^ t := by
            rw [mul_assoc, ← zpow_add₀ (by norm_num : (2:ℚ) ≠ 0)]
            simp
        _ < (b : ℚ) * (2 : ℚ) ^ t := by
            exact mul_lt_mul_of_pos_right hq (zpow_pos (by norm_num) _)
        _ = (2 : ℚ) ^ t * (b : ℚ) := by ring
    · intro h
      have hq : (a : ℚ) * (2 : ℚ) ^ (-t : ℤ) < (b : ℚ) := by
        have h2 : (a : ℚ) < (2 : ℚ) ^ t * (b : ℚ) := by
          rw [div_lt_iff₀ hbq] at h
          exact h
        calc (a : ℚ) * (2 : ℚ) ^ (-t : ℤ)
            < ((2 : ℚ) ^ t * (b : ℚ)) * (2 : ℚ) ^ (-t : ℤ) :=
              mul_lt_mul_of_pos_right h2 hpow
          _ = (b : ℚ) := by
              rw [mul_comm ((2:ℚ)^t) (b:ℚ), mul_assoc,
                ← zpow_add₀ (by norm_num : (2:ℚ) ≠ 0)]
              simp
      have : ((a * 2 ^ (-t).toNat : ℤ) : ℚ) < (b : ℚ) := by
        rw [← hcast] at hq
        calc ((a * 2 ^ (-t).toNat : ℤ) : ℚ) = (a : ℚ) * (2 : ℚ) ^ (-t).toNat := by
              push_cast; ring
          _ < (b : ℚ) := hq
      exact_mod_cast this

theorem pickExp_le (a b : ℤ) (ha : 1 ≤ a) (hb : 1 ≤ b) :
    (2 : ℚ) ^ ((52 : ℤ) + pickExp a b) ≤ (a : ℚ) / (b : ℚ) := by
  have haq : (0 : ℚ) < (a : ℚ) := by exact_mod_cast ha
  have hbq : (0 : ℚ) < (b : ℚ) := by exact_mod_cast (lt_of_lt_of_le Int.zero_lt_one hb)
  have h2ne : (2 : ℚ) ≠ 0 := by norm_num
  have hana : (1 : ℕ) ≤ a.natAbs := by omega
  have hbna : (1 : ℕ) ≤ b.natAbs := by omega
  have haa : (a.natAbs : ℤ) = a := Int.natAbs_of_nonneg (by omega)
  have hbb : (b.natAbs : ℤ) = b := Int.natAbs_of_nonneg (by omega)
  have hac : ((a.natAbs : ℕ) : ℚ) = (a : ℚ) := by
    rw [← Int.cast_natCast (R := ℚ), haa]
  have hbc : ((b.natAbs : ℕ) : ℚ) = (b : ℚ) := by
    rw [← Int.cast_natCast (R := ℚ), hbb]
  -- bit-length bounds, cast to ℚ
  have hA1 : (2 : ℚ) ^ (nlog2 a.natAbs : ℤ) ≤ (a : ℚ) := by
    rw [← hac]
    calc (2 : ℚ) ^ (nlog2 a.natAbs : ℤ) = ((2 ^ nlog2 a.natAbs : ℕ) : ℚ) := by
          rw [zpow_natCast]; push_cast; ring
      _ ≤ ((a.natAbs : ℕ) : ℚ) := by exact_mod_cast nlog2_le a.natAbs hana
  have hB2 : (b : ℚ) < (2 : ℚ) ^ ((nlog2 b.natAbs : ℤ) + 1) := by
    rw [← hbc]
    calc ((b.natAbs : ℕ) : ℚ)
        < ((2 ^ (nlog2 b.natAbs + 1) : ℕ) : ℚ) := by
          exact_mod_cast lt_nlog2_succ b.natAbs hbna
      _ = (2 : ℚ) ^ ((nlog2 b.natAbs : ℤ) + 1) := by
          rw [show ((nlog2 b.natAbs : ℤ) + 1) = ((nlog2 b.natAbs + 1 : ℕ) : ℤ) by push_cast; ring,
            zpow_natCast]
          push_cast; ring
  simp only [pickExp]
  set g : ℤ := (nlog2 a.natAbs : ℤ) - (nlog2 b.natAbs : ℤ) - 52 with hg
  by_cases hcond : ratioLt a b (g + 52) = true
  · rw [if_pos hcond]
    -- claimed exponent: 52 + (g - 1) = La - Lb - 1
    have hlow : (2 : ℚ) ^ ((nlog2 a.natAbs : ℤ) - ((nlog2 b.natAbs : ℤ) + 1))
        ≤ (a : ℚ) / (b : ℚ) := by
      rw [zpow_sub₀ h2ne]
      exact div_le_div₀ (le_of_lt haq) hA1 hbq (le_of_lt hB2)
    calc (2 : ℚ) ^ ((52 : ℤ) + (g - 1))
        = (2 : ℚ) ^ ((nlog2 a.natAbs : ℤ) - ((nlog2 b.natAbs : ℤ) + 1)) := by
          rw [hg]; ring_nf
      _ ≤ (a : ℚ) / (b : ℚ) := hlow
  · rw [if_neg hcond]
    have hnot : ¬((a : ℚ) / (b : ℚ) < (2 : ℚ) ^ (g + 52)) := by
      rw [← ratioLt_iff a b (g + 52) (by omega)]
      simpa using hcond
    have : (2 : ℚ) ^ (g + 52) ≤ (a : ℚ) / (b : ℚ) := not_lt.mp hnot
    calc (2 : ℚ) ^ ((52 : ℤ) + g) = (2 : ℚ) ^ (g + 52) := by ring_nf
      _ ≤ (a : ℚ) / (b : ℚ) := this

theorem shiftRatio_val (a b e : ℤ) (hb : 0 < b) :
    ((shiftRatio a b e).1 : ℚ) / ((shiftRatio a b e).2 : ℚ)
      = (a : ℚ) / (b : ℚ) * (2 : ℚ) ^ (-e) := by
  have hbq : (0 : ℚ) < (b : ℚ) := by exact_mod_cast hb
  have h2ne : (2 : ℚ) ≠ 0 := by norm_num
  simp only [shiftRatio]
  by_cases he : 0 ≤ e
  · rw [if_pos he]
    have hcast : ((2 : ℚ) ^ e.toNat : ℚ) = (2 : ℚ) ^ e :=
      two_zpow_toNat e he
    push_cast
    calc (a : ℚ) / ((b : ℚ) * (2 : ℚ) ^ e.toNat)
        = (a : ℚ) / (b : ℚ) / (2 : ℚ) ^ e.toNat := by rw [div_div]
      _ = (a : ℚ) / (b : ℚ) * ((2 : ℚ) ^ e.toNat)⁻¹ := by rw [div_eq_mul_inv]
      _ = (a : ℚ) / (b : ℚ) * (2 : ℚ) ^ (-e) := by rw [zpow_neg, hcast]
  · rw [if_neg he]
    have hcast : ((2 : ℚ) ^ (-e).toNat : ℚ) = (2 : ℚ) ^ (-e : ℤ) :=
      two_zpow_toNat (-e) (by omega)
    push_cast
    rw [← hcast]
    ring

theorem shiftRatio_pos (a b e : ℤ) (ha : 0 < a) (hb : 0 < b) :
    0 ≤ (shiftRatio a b e).1 ∧ 0 < (shiftRatio a b e).2 := by
  simp only [shiftRatio]
  by_cases he : 0 ≤ e
  · rw [if_pos he]
    refine ⟨le_of_lt ha, ?_⟩
    positivity
  · rw [if_neg he]
    refine ⟨?_, hb⟩
    positivity

theorem flRat_pos_eq (a b : ℤ) (ha : 0 < a) :
    flRat a b =
      ⟨roundNEratio (shiftRatio a b (pickExp a b)).1
          (shiftRatio a b (pickExp a b)).2,
        pickExp a b⟩ := by
  have h1 : a ≠ 0 := by omega
  have h2 : ¬a < 0 := by omega
  simp [flRat, h1, h2]

theorem flRat_neg_eq (a b : ℤ) (ha : a < 0) :
    flRat a b = ⟨-(flRat (-a) b).m, (flRat (-a) b).e⟩ := by
  have h1 : a ≠ 0 := by omega
  have h3 : (0 : ℤ) < -a := by omega
  rw [flRat_pos_eq (-a) b h3]
  simp [flRat, h1, ha]

theorem flRat_err_pos (a b : ℤ) (ha : 0 < a) (hb : 0 < b) :
    |(flRat a b).val - (a : ℚ) / (b : ℚ)| ≤ ((a : ℚ) / (b : ℚ)) / 2 ^ 53 := by
  have haq : (0 : ℚ) < (a : ℚ) := by exact_mod_cast ha
  have hbq : (0 : ℚ) < (b : ℚ) := by exact_mod_cast hb
  have h2ne : (2 : ℚ) ≠ 0 := by norm_num
  set e : ℤ := pickExp a b with hedef
  obtain ⟨hA0, hB0⟩ := shiftRatio_pos a b e ha hb
  have hval : (flRat a b).val
      = (roundNEratio (shiftRatio a b e).1 (shiftRatio a b e).2 : ℚ)
          * (2 : ℚ) ^ e := by
    rw [flRat_pos_eq a b ha]
    rfl
  have hratio := shiftRatio_val a b e hb
  have hround := roundNEratio_err (shiftRatio a b e).1 (shiftRatio a b e).2 hB0
  have hpe : (0 : ℚ) < (2 : ℚ) ^ e := zpow_pos (by norm_num) _
  -- |val - a/b| = |round - (a/b) 2^(-e)| * 2^e
  have hkey : (flRat a b).val - (a : ℚ) / b
      = ((roundNEratio (shiftRatio a b e).1 (shiftRatio a b e).2 : ℚ)
          - ((a : ℚ) / b) * (2 : ℚ) ^ (-e)) * (2 : ℚ) ^ e := by
    rw [hval]
    have : ((a : ℚ) / b) * (2 : ℚ) ^ (-e) * (2 : ℚ) ^ e = (a : ℚ) / b := by
      rw [mul_assoc, ← zpow_add₀ h2ne]
      simp
    rw [sub_mul, this]
  have habs : |(flRat a b).val - (a : ℚ) / b|
      ≤ (1 / 2) * (2 : ℚ) ^ e := by
    rw [hkey, abs_mul, abs_of_pos hpe]
    apply mul_le_mul_of_nonneg_right _ (le_of_lt hpe)
    rw [← hratio]
    exact hround
  -- 2^e ≤ (a/b) / 2^52 from the pickExp lower bound
  have hlow := pickExp_le a b (by omega) (by omega)
  have hsplit : (2 : ℚ) ^ ((52 : ℤ) + e) = (2 : ℚ) ^ (52 : ℤ) * (2 : ℚ) ^ e :=
    zpow_add₀ h2ne 52 e
  have he52 : (2 : ℚ) ^ e ≤ ((a : ℚ) / b) / (2 : ℚ) ^ (52 : ℤ) := by
    rw [le_div_iff₀ (zpow_pos (by norm_num) _)]
    calc (2 : ℚ) ^ e * (2 : ℚ) ^ (52 : ℤ) = (2 : ℚ) ^ ((52 : ℤ) + e) := by
          rw [hsplit]; ring
      _ ≤ (a : ℚ) / b := hlow
  calc |(flRat a b).val - (a : ℚ) / b| ≤ (1 / 2) * (2 : ℚ) ^ e := habs
    _ ≤ (1 / 2) * (((a : ℚ) / b) / (2 : ℚ) ^ (52 : ℤ)) := by
        apply mul_le_mul_of_nonneg_left he52
        norm_num
    _ = ((a : ℚ) / b) / 2 ^ 53 := by
        rw [show ((2 : ℚ) ^ (52 : ℤ)) = ((2 : ℚ) ^ (52 : ℕ)) by
          rw [← zpow_natCast]; norm_num]
        ring

theorem Dbl_val_neg (m e : ℤ) : (Dbl.mk (-m) e).val = -(Dbl.mk m e).val := by
  simp [Dbl.val]

theorem flRat_err (a b : ℤ) (hb : 0 < b) :
    |(flRat a b).val - (a : ℚ) / (b : ℚ)| ≤ |(a : ℚ) / (b : ℚ)| / 2 ^ 53 := by
  rcases lt_trichotomy a 0 with hneg | hzero | hpos
  · have h3 : (0 : ℤ) < -a := by omega
    have hrec := flRat_err_pos (-a) b h3 hb
    have hval : (flRat a b).val = -(flRat (-a) b).val := by
      rw [flRat_neg_eq a b hneg]
      rcases hfr : flRat (-a) b with ⟨m, e⟩
      exact Dbl_val_neg m e
    have hcast : ((-a : ℤ) : ℚ) = -(a : ℚ) := by push_cast; ring
    have habs : |(a : ℚ) / b| = ((-a : ℤ) : ℚ) / b := by
      rw [hcast, abs_div]
      have ha_lt : (a : ℚ) < 0 := by exact_mod_cast hneg
      have hbq : (0 : ℚ) < (b : ℚ) := by exact_mod_cast hb
      rw [abs_of_neg ha_lt, abs_of_pos hbq]
    rw [hval, habs]
    calc |-(flRat (-a) b).val - (a : ℚ) / b|
        = |(flRat (-a) b).val - ((-a : ℤ) : ℚ) / b| := by
          rw [← abs_neg]
          congr 1
          push_cast
          ring
      _ ≤ (((-a : ℤ) : ℚ) / b) / 2 ^ 53 := hrec
  · subst hzero
    simp [flRat, Dbl.val]
  · have hrec := flRat_err_pos a b hpos hb
    have haq : (0 : ℚ) < (a : ℚ) := by exact_mod_cast hpos
    have hbq : (0 : ℚ) < (b : ℚ) := by exact_mod_cast hb
    rw [abs_of_pos (div_pos haq hbq)]
    exact hrec

theorem satsToBtc_eq (s : ℤ) : satsToBtc s = flRat s 100000000 := by
  simp [satsToBtc, jsDiv1e8]

theorem jsMul1e8_err (x : Dbl) :
    |(jsMul1e8 x).val - x.val * 100000000| ≤ |x.val * 100000000| / 2 ^ 53 := by
  simp only [jsMul1e8]
  by_cases he : 0 ≤ x.e
  · rw [if_pos he]
    have hcast : ((2 : ℚ) ^ x.e.toNat) = (2 : ℚ) ^ x.e :=
      two_zpow_toNat x.e he
    have hA : ((x.m * 100000000 * 2 ^ x.e.toNat : ℤ) : ℚ) / ((1 : ℤ) : ℚ)
        = x.val * 100000000 := by
      push_cast
      rw [div_one, Dbl.val, ← hcast]
      ring
    have h := flRat_err (x.m * 100000000 * 2 ^ x.e.toNat) 1 (by norm_num)
    rw [hA] at h
    exact h
  · rw [if_neg he]
    have hb : (0 : ℤ) < 2 ^ (-x.e).toNat := by positivity
    have hcast : ((2 : ℚ) ^ (-x.e).toNat) = (2 : ℚ) ^ (-x.e : ℤ) :=
      two_zpow_toNat (-x.e) (by omega)
    have h2ne : (2 : ℚ) ≠ 0 := by norm_num
    have hpow : ((2 : ℚ) ^ (-x.e : ℤ)) ≠ 0 := by positivity
    have hA : ((x.m * 100000000 : ℤ) : ℚ) / ((2 ^ (-x.e).toNat : ℤ) : ℚ)
        = x.val * 100000000 := by
      push_cast
      rw [hcast, Dbl.val]
      rw [show (2 : ℚ) ^ x.e = ((2 : ℚ) ^ (-x.e : ℤ))⁻¹ by
        rw [← zpow_neg]
        congr 1
        ring]
      field_simp
      ring
    have h := flRat_err (x.m * 100000000) (2 ^ (-x.e).toNat) hb
    rw [hA] at h
    exact h

theorem mathRoundD_eq_floor (x : Dbl) : mathRoundD x = ⌊x.val + 1 / 2⌋ := by
  simp only [mathRoundD]
  by_cases he : 0 ≤ x.e
  · rw [if_pos he]
    have hcast : ((2 : ℚ) ^ x.e.toNat) = (2 : ℚ) ^ x.e :=
      two_zpow_toNat x.e he
    have hval : x.val = ((x.m * 2 ^ x.e.toNat : ℤ) : ℚ) := by
      rw [Dbl.val, ← hcast]
      push_cast
      ring
    rw [hval, Int.floor_int_add]
    norm_num
  · rw [if_neg he]
    have hn : ((((-x.e).toNat : ℕ) : ℤ)) = -x.e := by omega
    have hcast : ((2 : ℚ) ^ (-x.e).toNat) = (2 : ℚ) ^ (-x.e : ℤ) :=
      two_zpow_toNat (-x.e) (by omega)
    have hpow : (0 : ℚ) < (2 : ℚ) ^ (-x.e).toNat := by positivity
    have hv : x.val + 1 / 2
        = ((2 * x.m + 2 ^ (-x.e).toNat : ℤ) : ℚ)
            / ((2 ^ ((-x.e).toNat + 1) : ℕ) : ℚ) := by
      rw [Dbl.val]
      rw [show (2 : ℚ) ^ x.e = ((2 : ℚ) ^ (-x.e : ℤ))⁻¹ by
        rw [← zpow_neg]
        congr 1
        ring]
      rw [← hcast]
      push_cast
      field_simp
      ring
    rw [hv, Rat.floor_intCast_div_natCast]
    congr 1
    push_cast
    ring

/-- Counterexample for C1: the satoshi amount `3927412367398138` (an exactly
representable integer below `2 ^ 53`) does not survive the round-trip: the
binary64 product lands exactly on `s + 1 / 2` and `Math.round` rounds half
up, reporting `3927412367398139`. -/
theorem sats_roundtrip_counterexample :
    satsRoundTrip 3927412367398138 = 3927412367398139 ∧
    satsRoundTrip 3927412367398138 ≠ 3927412367398138 := by
  constructor
  · decide
  · decide

/-- C1 (amended): the Lightning-invoice shortcut converts satoshi input to
BTC by a binary64 division by `100_000_000` and reports
`Math.round` of the binary64 product of the BTC amount with `100_000_000`;
the composition yields `s` exactly for every satoshi amount with
`|s| ≤ 2 ^ 51 - 1` (every realistically possible amount: the total Bitcoin
supply is below `2.2 * 10 ^ 15 < 2 ^ 51`), but not for every integer. -/
theorem sats_roundtrip_exact (s : ℤ)
    (hlo : -(2 ^ 51 - 1) ≤ s) (hhi : s ≤ 2 ^ 51 - 1) :
    satsRoundTrip s = s := by
  have hC : (0 : ℤ) < 100000000 := by norm_num
  have hCq : (0 : ℚ) < 100000000 := by norm_num
  set x : Dbl := satsToBtc s with hx
  have hxerr : |x.val - (s : ℚ) / 100000000| ≤ |(s : ℚ) / 100000000| / 2 ^ 53 := by
    rw [hx, satsToBtc_eq]
    exact_mod_cast flRat_err s 100000000 hC
  have hyerr := jsMul1e8_err x
  have hsb : |(s : ℚ)| ≤ 2 ^ 51 - 1 := by
    rw [abs_le]
    constructor
    · exact_mod_cast hlo
    · exact_mod_cast hhi
  -- |x.val * 1e8 - s| ≤ |s| / 2^53
  have e1 : |x.val * 100000000 - (s : ℚ)| ≤ |(s : ℚ)| / 2 ^ 53 := by
    have hrw : x.val * 100000000 - (s : ℚ)
        = (x.val - (s : ℚ) / 100000000) * 100000000 := by
      field_simp
    rw [hrw, abs_mul, abs_of_pos hCq]
    calc |x.val - (s : ℚ) / 100000000| * 100000000
        ≤ (|(s : ℚ) / 100000000| / 2 ^ 53) * 100000000 := by
          exact mul_le_mul_of_nonneg_right hxerr (le_of_lt hCq)
      _ = |(s : ℚ)| / 2 ^ 53 := by
          rw [abs_div, abs_of_pos hCq]
          field_simp
          ring
  -- |x.val * 1e8| ≤ |s| + |s| / 2^53
  have e2 : |x.val * 100000000| ≤ |(s : ℚ)| + |(s : ℚ)| / 2 ^ 53 := by
    calc |x.val * 100000000|
        = |(x.val * 100000000 - (s : ℚ)) + (s : ℚ)| := by congr 1; ring
      _ ≤ |x.val * 100000000 - (s : ℚ)| + |(s : ℚ)| := abs_add _ _
      _ ≤ |(s : ℚ)| / 2 ^ 53 + |(s : ℚ)| := by linarith [e1]
      _ = |(s : ℚ)| + |(s : ℚ)| / 2 ^ 53 := by ring
  -- |y.val - s| < 1/2
  have h53 : (0 : ℚ) < 2 ^ 53 := by positivity
  have e3 : |(jsMul1e8 x).val - (s : ℚ)| < 1 / 2 := by
    have h1 : |(jsMul1e8 x).val - (s : ℚ)|
        ≤ |x.val * 100000000| / 2 ^ 53 + |(s : ℚ)| / 2 ^ 53 := by
      calc |(jsMul1e8 x).val - (s : ℚ)|
          = |((jsMul1e8 x).val - x.val * 100000000)
              + (x.val * 100000000 - (s : ℚ))| := by congr 1; ring
        _ ≤ |(jsMul1e8 x).val - x.val * 100000000|
              + |x.val * 100000000 - (s : ℚ)| := abs_add _ _
        _ ≤ |x.val * 100000000| / 2 ^ 53 + |(s : ℚ)| / 2 ^ 53 := by
            linarith [hyerr, e1]
    have h2 : |x.val * 100000000| / 2 ^ 53
        ≤ (|(s : ℚ)| + |(s : ℚ)| / 2 ^ 53) / 2 ^ 53 :=
      (div_le_div_iff_of_pos_right h53).mpr e2
    have hkey : (|(s : ℚ)| + |(s : ℚ)| / 2 ^ 53) / 2 ^ 53 + |(s : ℚ)| / 2 ^ 53
        < 1 / 2 := by
      have ht0 : (0 : ℚ) ≤ |(s : ℚ)| := abs_nonneg _
      have hform : (|(s : ℚ)| + |(s : ℚ)| / 2 ^ 53) / 2 ^ 53 + |(s : ℚ)| / 2 ^ 53
          = |(s : ℚ)| * ((2 ^ 54 + 1) / 2 ^ 106) := by
        ring
      rw [hform]
      have hstep : |(s : ℚ)| * ((2 ^ 54 + 1) / 2 ^ 106)
          ≤ (2 ^ 51 - 1) * ((2 ^ 54 + 1) / 2 ^ 106) := by
        apply mul_le_mul_of_nonneg_right hsb
        positivity
      calc |(s : ℚ)| * ((2 ^ 54 + 1) / 2 ^ 106)
          ≤ (2 ^ 51 - 1) * ((2 ^ 54 + 1) / 2 ^ 106) := hstep
        _ < 1 / 2 := by norm_num
    linarith [h1, h2, hkey]
  -- conclude with Math.round
  have hrt : satsRoundTrip s = mathRoundD (jsMul1e8 x) := rfl
  rw [hrt, mathRoundD_eq_floor]
  rw [Int.floor_eq_iff]
  obtain ⟨hl, hr⟩ := abs_lt.mp e3
  constructor
  · linarith
  · linarith

/-- Witness for C1 at the spec's example amount 10000 satoshis. -/
theorem sats_roundtrip_exact_witness :
    (-(2 ^ 51 - 1) ≤ (10000 : ℤ) ∧ (10000 : ℤ) ≤ 2 ^ 51 - 1) ∧
    satsRoundTrip 10000 = 10000 :=
  ⟨⟨by decide, by decide⟩, sats_roundtrip_exact 10000 (by decide) (by decide)⟩
